import Mathlib

/-!
# Verification of the `ipfs-uniform-resolve` path-resolution core

This file is a shallow embedding of the library returned by the factory
function in the repository's main source file (the `resolveIpns` and
`resolve` methods), together with the `DeadEndError` class from
`src/error.ts`.  External collaborators (the block source, the decoder
registry, the name resolver, and the `multiformats` CID text
parsing/formatting) are modelled as function-valued fields of an
environment record, exactly at the interface the core consumes.

Modelling conventions (each noted again at the definition it concerns):
* JavaScript numbers that appear as decoded leaves are modelled as `Int`.
* Prototype-inherited properties (`toString`, `charAt`, `__proto__`, ...)
  of decoded values are not modelled: bracket access to them is modelled
  as yielding `undefined`.  Own properties, string/array/byte indexing and
  `length` are modelled faithfully.
* `JSON.parse` (used by the source to turn an array-indexing path segment
  into a value) is modelled by a JSON reader together with the JavaScript
  string coercion of the parsed value to a property key, since
  `node[JSON.parse(seg)]` coerces the parsed value to a key.
* Non-termination of the self-recursive `resolve` (possible, since an
  embedded-identifier jump can re-pass the whole remaining path) is cut
  off by an explicit fuel parameter; running out of fuel yields the
  artificial outcome `ResolveErr.outOfFuel` which corresponds to no
  JavaScript behaviour and is never produced in any theorem below.
-/

set_option autoImplicit false

/-- A content identifier: codec code, hash-function (multihash) code and
digest, mirroring the `CID` type of `multiformats` at the fields the
source reads (`cid.code`, `cid.multihash.code`). -/
structure CID where
  code : Nat
  hashCode : Nat
  digest : List Nat
deriving DecidableEq, Repr

/-- A decoded generic (non-DAG-PB) IPLD value: maps, sequences and scalar
leaves, including embedded identifiers (`Value.cid`) and strings (which
may spell an identifier).  Numeric leaves are modelled as `Int`. -/
inductive Value where
  | null : Value
  | bool (b : Bool) : Value
  | num (n : Int) : Value
  | str (s : String) : Value
  | bytes (bs : List Nat) : Value
  | cid (c : CID) : Value
  | arr (elems : List Value) : Value
  | map (fields : List (String × Value)) : Value
deriving Repr

/-- A named link of a DAG-PB node (`PBLink` of `@ipld/dag-pb`): the name
is optional there, so it is an `Option String` here. -/
structure PBLink where
  Name : Option String
  Hash : CID
  Tsize : Option Nat
deriving DecidableEq, Repr

/-- A DAG-PB node (`PBNode` of `@ipld/dag-pb`). -/
structure PBNode where
  Links : List PBLink
  Data : Option (List Nat)
deriving DecidableEq, Repr

/-- The decoded value of a block: a DAG-PB node for the DAG-PB codec, an
arbitrary IPLD value otherwise. -/
inductive NodeVal where
  | pbNode (n : PBNode) : NodeVal
  | generic (v : Value) : NodeVal
deriving Repr

/-- The result of the decoder registry on one block, mirroring the
`multiformats` `Block` at the fields the source reads (`decoded.cid`,
`decoded.value`, and the block itself, returned as the `block` field). -/
structure DecodedBlock where
  cid : CID
  value : NodeVal
  bytes : List Nat
deriving Repr

/-- The structured failure value of `src/error.ts`: message, the CID of
the block at which the error happened, the segment at which resolution
failed (`at` in the source; `at` is a reserved word in Lean) and the
remaining unresolved path. -/
structure DeadEndError where
  msg : String
  cid : CID
  at_ : String
  remaining : String
deriving DecidableEq, Repr

/-- Everything `resolve`/`resolveIpns` can throw.  `typeError`,
`syntaxError` model the corresponding JavaScript runtime exceptions;
`collab` is a collaborator (block source / decoder / name resolver)
failure propagated unmodified; `cidParseError` models the exception of
`CID.parse` on the final IPNS emission, carrying the offending text;
`outOfFuel` is the fuel-exhaustion artifact of the embedding. -/
inductive ResolveErr where
  | typeError (msg : String) : ResolveErr
  | syntaxError (msg : String) : ResolveErr
  | deadEnd (e : DeadEndError) : ResolveErr
  | collab (e : String) : ResolveErr
  | cidParseError (text : String) : ResolveErr
  | outOfFuel : ResolveErr
deriving Repr

/-- The successful result of `resolve`: `{ value, cid, block }`. -/
structure ResolveResult where
  value : NodeVal
  cid : CID
  block : DecodedBlock
deriving Repr

/-- One collaborator invocation, recorded so that theorems can speak
about which collaborators a call consulted. -/
inductive CallEvent where
  | blockGet (c : CID) : CallEvent
  | decode (codec : Nat) (hashf : Nat) : CallEvent
deriving DecidableEq, Repr

/-- The external collaborators, at exactly the interface the source
consumes: `block.get`, `decoder.decode`, `name.resolve` (its lazy
sequence modelled as a finite list of emitted strings, a failure
anywhere in the iteration modelled as the error case), and the
`multiformats` identifier text functions `CID.parse` / `cid.toString()`. -/
structure Env where
  blockGet : CID → Except String (List Nat)
  decode : Nat → Nat → List Nat → Except String DecodedBlock
  nameResolve : String → Bool → Option Nat → Except String (List String)
  parseCid : String → Option CID
  cidToString : CID → String

/-- The recognized options object of `resolve`; an absent field is
`none`, mirroring `options?.followPb` / `options?.followIpld`. -/
structure ResolveOptions where
  followPb : Option Bool
  followIpld : Option Bool
deriving DecidableEq, Repr

/-- The code for the `libp2p-key` codec, `kLibp2pKeyCodec` in the source. -/
def kLibp2pKeyCodec : Nat := 0x72

/-- The DAG-PB codec code (`pb.code` from `@ipld/dag-pb`). -/
def pbCode : Nat := 0x70

/-- A single-quote character, written via its code point. -/
def quoteCh : String := String.mk [Char.ofNat 39]

/-! ## Path splitting and joining -/

/-- Worker for `splitPath`: scans the character list, accumulating the
current segment (in reverse) in `acc` and emitting it whenever a slash
or the end of the input is reached, dropping empty segments. -/
def splitSegsAux : List Char → List Char → List String
  | [], acc => if acc = [] then [] else [String.mk acc.reverse]
  | c :: cs, acc =>
    if c = '/' then
      if acc = [] then splitSegsAux cs []
      else String.mk acc.reverse :: splitSegsAux cs []
    else splitSegsAux cs (c :: acc)

/-- Models `path.split(/\/+/).filter((s) => s.length)` of the source:
split on runs of slashes and drop empty segments (splitting on a run of
slashes and dropping empties is the same as splitting on every single
slash and dropping empties, which is what the scan does). -/
def splitPath (path : String) : List String :=
  splitSegsAux path.data []

/-- Models `list.join("/")` of JavaScript. -/
def joinSlash : List String → String
  | [] => ""
  | s :: ss => ss.foldl (fun acc x => acc ++ "/" ++ x) s

/-- Models `list.reduce((acc, x) => acc + "/" + x)` of the source: on an
empty array, `Array.prototype.reduce` without an initial value throws a
`TypeError`. -/
def jsReduce : List String → Except ResolveErr String
  | [] => Except.error (ResolveErr.typeError "Reduce of empty array with no initial value")
  | s :: ss => Except.ok (ss.foldl (fun acc x => acc ++ "/" ++ x) s)

theorem jsReduce_cons (s : String) (ss : List String) :
    jsReduce (s :: ss) = Except.ok (joinSlash (s :: ss)) := rfl

/-! ## The JavaScript `JSON.parse`-as-array-index model

The source indexes a sequence cursor with `node[JSON.parse(seg)]`.  In
JavaScript this parses `seg` as JSON (throwing a `SyntaxError` when it is
not JSON) and then coerces the parsed value to a property key string; on
an array, only the canonical decimal spelling of an in-range index, or
the key `"length"`, yields a value.  The reader below follows the JSON
grammar; numbers are kept exact as `± mantissa · 10^exp10` (the engine's
float rounding can only matter for integers ≥ 2^53, which exceed any
array length and therefore index to `undefined` either way).  String
escapes `\uXXXX` outside the valid code-point ranges, which JavaScript
turns into lone surrogates, are mapped to the null character instead. -/

/-- The JSON value grammar.  A number denotes `± mantissa · 10^exp10`. -/
inductive Json where
  | null : Json
  | bool (b : Bool) : Json
  | num (neg : Bool) (mantissa : Nat) (exp10 : Int) : Json
  | str (s : String) : Json
  | arr (elems : List Json) : Json
  | obj (fields : List (String × Json)) : Json
deriving Repr

/-- JSON insignificant whitespace. -/
def isJsonWs (c : Char) : Bool :=
  c = ' ' || c = '\t' || c = '\n' || c = '\r'

/-- Drop leading JSON whitespace. -/
def skipWs (cs : List Char) : List Char :=
  cs.dropWhile isJsonWs

/-- Hexadecimal digit value. -/
def hexVal (c : Char) : Option Nat :=
  if '0' ≤ c ∧ c ≤ '9' then some (c.toNat - 48)
  else if 'a' ≤ c ∧ c ≤ 'f' then some (c.toNat - 87)
  else if 'A' ≤ c ∧ c ≤ 'F' then some (c.toNat - 55)
  else none

/-- Parse the body of a JSON string literal after the opening quote,
returning the decoded characters and the input after the closing
quote. -/
def parseStringBody : List Char → Option (List Char × List Char)
  | [] => none
  | '"' :: rest => some ([], rest)
  | '\\' :: esc =>
    match esc with
    | '"' :: rest => (parseStringBody rest).map (fun r => ('"' :: r.1, r.2))
    | '\\' :: rest => (parseStringBody rest).map (fun r => ('\\' :: r.1, r.2))
    | '/' :: rest => (parseStringBody rest).map (fun r => ('/' :: r.1, r.2))
    | 'b' :: rest => (parseStringBody rest).map (fun r => (Char.ofNat 8 :: r.1, r.2))
    | 'f' :: rest => (parseStringBody rest).map (fun r => (Char.ofNat 12 :: r.1, r.2))
    | 'n' :: rest => (parseStringBody rest).map (fun r => ('\n' :: r.1, r.2))
    | 'r' :: rest => (parseStringBody rest).map (fun r => ('\r' :: r.1, r.2))
    | 't' :: rest => (parseStringBody rest).map (fun r => ('\t' :: r.1, r.2))
    | 'u' :: h1 :: h2 :: h3 :: h4 :: rest =>
      match hexVal h1, hexVal h2, hexVal h3, hexVal h4 with
      | some a, some b, some c, some d =>
        (parseStringBody rest).map
          (fun r => (Char.ofNat (((a * 16 + b) * 16 + c) * 16 + d) :: r.1, r.2))
      | _, _, _, _ => none
    | _ => none
  | c :: rest =>
    if c.toNat < 32 then none
    else (parseStringBody rest).map (fun r => (c :: r.1, r.2))

/-- Digits-to-nat, most significant first. -/
def digitsToNat (ds : List Char) : Nat :=
  ds.foldl (fun n c => n * 10 + (c.toNat - 48)) 0

/-- Parse a JSON number starting at the given characters: optional minus,
integer part (`0` or a nonzero-leading digit run), optional fraction,
optional exponent.  Returns `(neg, mantissa, exp10)` and the rest. -/
def parseNumber (cs : List Char) : Option ((Bool × Nat × Int) × List Char) :=
  let signed : Bool × List Char :=
    match cs with
    | '-' :: t => (true, t)
    | _ => (false, cs)
  let neg := signed.1
  match signed.2 with
  | [] => none
  | c :: t =>
    if c = '0' then
      -- integer part is exactly "0"
      stepFrac neg [c] t
    else if c.isDigit then
      let split := t.span Char.isDigit
      stepFrac neg (c :: split.1) split.2
    else none
where
  /-- After the integer part: optional `.digits`, then exponent. -/
  stepFrac (neg : Bool) (intDs : List Char) (cs : List Char) :
      Option ((Bool × Nat × Int) × List Char) :=
    match cs with
    | '.' :: t =>
      let split := t.span Char.isDigit
      if split.1 = [] then none
      else stepExp neg (intDs ++ split.1) (-(split.1.length : Int)) split.2
    | _ => stepExp neg intDs 0 cs
  /-- After the fraction: optional `e`/`E` exponent. -/
  stepExp (neg : Bool) (mantDs : List Char) (fracExp : Int) (cs : List Char) :
      Option ((Bool × Nat × Int) × List Char) :=
    match cs with
    | c :: t =>
      if c = 'e' ∨ c = 'E' then
        let signed : Bool × List Char :=
          match t with
          | '+' :: t2 => (false, t2)
          | '-' :: t2 => (true, t2)
          | _ => (false, t)
        let split := signed.2.span Char.isDigit
        if split.1 = [] then none
        else
          let e : Int := digitsToNat split.1
          some ((neg, digitsToNat mantDs, fracExp + (if signed.1 then -e else e)), split.2)
      else some ((neg, digitsToNat mantDs, fracExp), cs)
    | [] => some ((neg, digitsToNat mantDs, fracExp), [])

/-- The opening brace character, via its code point. -/
def lbraceChar : Char := Char.ofNat 123

/-- The closing brace character, via its code point. -/
def rbraceChar : Char := Char.ofNat 125

mutual

/-- Fuel-indexed recursive-descent JSON value reader.  The fuel only cuts
recursion depth; the top-level entry supplies more fuel than the input
length, so fuel exhaustion never occurs on any actual input. -/
def parseJsonVal : Nat → List Char → Option (Json × List Char)
  | 0, _ => none
  | fuel + 1, cs =>
    match skipWs cs with
    | [] => none
    | c :: rest =>
      if c = 'n' then
        match rest with
        | 'u' :: 'l' :: 'l' :: r => some (Json.null, r)
        | _ => none
      else if c = 't' then
        match rest with
        | 'r' :: 'u' :: 'e' :: r => some (Json.bool true, r)
        | _ => none
      else if c = 'f' then
        match rest with
        | 'a' :: 'l' :: 's' :: 'e' :: r => some (Json.bool false, r)
        | _ => none
      else if c = '"' then
        (parseStringBody rest).map (fun r => (Json.str (String.mk r.1), r.2))
      else if c = '[' then
        match skipWs rest with
        | c2 :: r2 =>
          if c2 = ']' then some (Json.arr [], r2)
          else parseArrayItems fuel (skipWs rest) []
        | [] => none
      else if c = lbraceChar then
        match skipWs rest with
        | c2 :: r2 =>
          if c2 = rbraceChar then some (Json.obj [], r2)
          else parseObjItems fuel (skipWs rest) []
        | [] => none
      else
        (parseNumber (c :: rest)).map
          (fun r => (Json.num r.1.1 r.1.2.1 r.1.2.2, r.2))

/-- Array elements after `[` (nonempty case), accumulating in reverse. -/
def parseArrayItems : Nat → List Char → List Json → Option (Json × List Char)
  | 0, _, _ => none
  | fuel + 1, cs, acc =>
    match parseJsonVal fuel cs with
    | none => none
    | some (v, rest) =>
      match skipWs rest with
      | c :: r =>
        if c = ',' then parseArrayItems fuel r (v :: acc)
        else if c = ']' then some (Json.arr (v :: acc).reverse, r)
        else none
      | [] => none

/-- Object members after the opening brace (nonempty case), accumulating
in reverse. -/
def parseObjItems : Nat → List Char → List (String × Json) → Option (Json × List Char)
  | 0, _, _ => none
  | fuel + 1, cs, acc =>
    match skipWs cs with
    | '"' :: rest =>
      match parseStringBody rest with
      | none => none
      | some (key, rest2) =>
        match skipWs rest2 with
        | ':' :: rest3 =>
          match parseJsonVal fuel rest3 with
          | none => none
          | some (v, rest4) =>
            match skipWs rest4 with
            | c :: r =>
              if c = ',' then parseObjItems fuel r ((String.mk key, v) :: acc)
              else if c = rbraceChar then some (Json.obj ((String.mk key, v) :: acc).reverse, r)
              else none
            | [] => none
        | _ => none
    | _ => none

end

/-- Models `JSON.parse(seg)`: whole-input parse with surrounding JSON
whitespace; `none` models the thrown `SyntaxError`. -/
def jsonParseSeg (seg : String) : Option Json :=
  match parseJsonVal (seg.data.length + 1) seg.data with
  | some (j, rest) => if skipWs rest = [] then some j else none
  | none => none

/-- The canonical decimal spelling test for an array-index property key:
all digits with no leading zero (except `"0"` itself). -/
def canonicalIndex (s : String) : Option Nat :=
  match s.data with
  | [] => none
  | c :: cs =>
    if (c :: cs).all Char.isDigit ∧ (c = '0' → cs = []) then
      some (digitsToNat (c :: cs))
    else none

/-- How a property key behaves on a JavaScript array: a canonical index,
the `length` property, or any other key (which yields `undefined`). -/
inductive ArrayKey where
  | index (n : Nat) : ArrayKey
  | length : ArrayKey
  | other : ArrayKey
deriving DecidableEq, Repr

/-- Classify a plain string as an array property key. -/
def keyOfString (s : String) : ArrayKey :=
  if s = "length" then ArrayKey.length
  else
    match canonicalIndex s with
    | some n => ArrayKey.index n
    | none => ArrayKey.other

/-- Classify an exact JSON number as an array property key: `String(x)`
of a non-negative integer below the float-exact range is its canonical
decimal spelling (`String(-0)` is `"0"`); every other number's string is
not an index key. -/
def numKey (neg : Bool) (mantissa : Nat) (exp10 : Int) : ArrayKey :=
  if 0 ≤ exp10 then
    let n := mantissa * 10 ^ exp10.toNat
    if neg ∧ n ≠ 0 then ArrayKey.other else ArrayKey.index n
  else
    let d := 10 ^ (-exp10).toNat
    if mantissa % d = 0 then
      let n := mantissa / d
      if neg ∧ n ≠ 0 then ArrayKey.other else ArrayKey.index n
    else ArrayKey.other

/-- Classify a parsed JSON value used as an array subscript, following
the JavaScript ToPropertyKey coercion: `String(v)`.  `null`, booleans
and objects stringify to non-index keys; a one-element array stringifies
to its element's string (`String([null])` is `""`); a many-element array
join contains a comma, hence is never an index key. -/
def classifyKey : Json → ArrayKey
  | Json.null => ArrayKey.other
  | Json.bool _ => ArrayKey.other
  | Json.num neg m e => numKey neg m e
  | Json.str s => keyOfString s
  | Json.obj _ => ArrayKey.other
  | Json.arr [x] =>
    match x with
    | Json.null => ArrayKey.other
    | y => classifyKey y
  | Json.arr _ => ArrayKey.other

/-! ## Bracket access on a cursor value

Models `node[JSON.parse(seg)]` (array cursor) and `node[seg]` (any other
cursor) of the generic walk.  `Except.ok none` models the access
evaluating to `undefined`; `Except.ok (some v)` a defined result;
`Except.error` a thrown exception (`SyntaxError` from `JSON.parse`,
`TypeError` from property access on `null`). -/

/-- Array lookup by a classified property key. -/
def arrKeyLookup (xs : List Value) : ArrayKey → Option Value
  | ArrayKey.index n => xs.get? n
  | ArrayKey.length => some (Value.num xs.length)
  | ArrayKey.other => none

/-- String cursor: a character by canonical index, or `length`; other own
properties do not exist (prototype methods are not modelled). -/
def strCharLookup (s : String) (seg : String) : Option Value :=
  if seg = "length" then some (Value.num s.length)
  else
    match canonicalIndex seg with
    | some n => (s.data.get? n).map (fun c => Value.str (String.mk [c]))
    | none => none

/-- Byte-sequence cursor (a decoded `Uint8Array`): an element by
canonical index, or `length`. -/
def bytesLookup (bs : List Nat) (seg : String) : Option Value :=
  if seg = "length" then some (Value.num bs.length)
  else
    match canonicalIndex seg with
    | some n => (bs.get? n).map (fun b => Value.num b)
    | none => none

/-- One bracket access of the walk on a generic cursor.  Maps look up
their own keys in insertion order (decoded maps have distinct keys);
`null` throws a `TypeError`; identifier, number and boolean cursors have
no modelled own properties. -/
def jsAccessValue (v : Value) (seg : String) : Except ResolveErr (Option Value) :=
  match v with
  | Value.arr xs =>
    match jsonParseSeg seg with
    | none =>
      Except.error (ResolveErr.syntaxError ("Unexpected token in JSON: " ++ seg))
    | some j => Except.ok (arrKeyLookup xs (classifyKey j))
  | Value.map kvs => Except.ok ((kvs.find? (fun kv => kv.1 = seg)).map (fun kv => kv.2))
  | Value.null =>
    Except.error (ResolveErr.typeError
      ("Cannot read properties of null (reading " ++ quoteCh ++ seg ++ quoteCh ++ ")"))
  | Value.str s => Except.ok (strCharLookup s seg)
  | Value.bytes bs => Except.ok (bytesLookup bs seg)
  | Value.num _ => Except.ok none
  | Value.bool _ => Except.ok none
  | Value.cid _ => Except.ok none

/-- Bracket access on the walk cursor, which starts at `decoded.value`.
A DAG-PB node value can only reach the generic branch through a decoder
registry that returns it for a non-DAG-PB codec, which the real
multidecoder never does; its property access is modelled as
`undefined`. -/
def jsAccess (node : NodeVal) (seg : String) : Except ResolveErr (Option Value) :=
  match node with
  | NodeVal.generic v => jsAccessValue v seg
  | NodeVal.pbNode _ => Except.ok none

/-- Models the embedded-identifier test of the source, in source order:
`CID.asCID(node)` succeeds exactly on a typed identifier value, then
`CID.parse(node)` (with its exception caught) succeeds exactly on a
string the external identifier library parses. -/
def cidCheck (env : Env) (v : Value) : Option CID :=
  match v with
  | Value.cid c => some c
  | Value.str s => env.parseCid s
  | _ => none

/-! ## The generic walk and `resolve` -/

/-- The message of a dead end inside the generic walk, given the already
`/`-joined consumed prefix. -/
def deadEndWalkMsg (env : Env) (cid : CID) (joined : String) : String :=
  "Resolution hit dead end at CID " ++ env.cidToString cid ++
    ": object has no property at path /" ++ joined

/-- The message thrown on a DAG-PB node when `followPb` is `false`. -/
def pbDisabledMsg (env : Env) (cid : CID) : String :=
  "Resolution hit dead end at CID " ++ env.cidToString cid ++
    ": node is a DAG-PB node, but " ++ quoteCh ++ "followPb" ++ quoteCh ++
    " is set to " ++ quoteCh ++ "false" ++ quoteCh

/-- The message thrown on a generic node when `followIpld` is `false`. -/
def ipldDisabledMsg (env : Env) (cid : CID) : String :=
  "Resolution hit dead end at CID " ++ env.cidToString cid ++
    ": node is an IPLD node, but " ++ quoteCh ++ "followIpld" ++ quoteCh ++
    " is set to " ++ quoteCh ++ "false" ++ quoteCh

/-- The message thrown on a DAG-PB link miss. -/
def noLinkMsg (env : Env) (cid : CID) (curr : String) : String :=
  "Resolution hit dead end at CID " ++ env.cidToString cid ++ ": no link to " ++ curr

/-- The `TypeError` message of the `libp2p-key` precondition check. -/
def libp2pKeyMsg : String :=
  "Received CID with codec for " ++ quoteCh ++ "libp2p-key" ++ quoteCh ++
    ". If you need to resolve IPNS into a CID, call resolveIpns() first"

/-- The `TypeError` thrown when the DAG-PB cast meets a value with no
`Links` array (unreachable with a codec-consistent decoder registry). -/
def undefinedFindMsg : String :=
  "Cannot read properties of undefined (reading " ++ quoteCh ++ "find" ++ quoteCh ++ ")"

/-- The `TypeError` thrown by `r.slice(6)` in `resolveIpns` when the name
resolver emitted nothing, so `r` is still `null`. -/
def nullSliceMsg : String :=
  "Cannot read properties of null (reading " ++ quoteCh ++ "slice" ++ quoteCh ++ ")"

/-- The possible outcomes of the segment loop of the generic branch:
finish with the final cursor, request a recursive `resolve` (an embedded
identifier was found), or throw. -/
inductive WalkOutcome where
  | done (v : NodeVal) : WalkOutcome
  | jump (c : CID) (path : String) : WalkOutcome
  | errOut (e : ResolveErr) : WalkOutcome
deriving Repr

/-- The segment loop `for (const [i, seg] of segs.entries()) ...` of the
generic branch.  `consumed` is `segs.slice(0, i)` and `remaining` is
`segs.slice(i)` (so the loop variable `seg` is its head); `curr` and
`rest` are the head and tail of the original segment list, captured by
the error constructor.  On an access yielding `undefined`, the message is
built with `consumed.reduce(...)` — which throws on an empty `consumed`
— and otherwise a `DeadEndError` is thrown; on a defined access result
the embedded-identifier test runs, and a hit requests recursion on
`remaining.join("/")`, i.e. `segs.slice(i).join("/")`, re-including the
just-consumed segment. -/
def walkSegs (env : Env) (cid : CID) (curr : String) (rest : List String) :
    List String → List String → NodeVal → WalkOutcome
  | _, [], node => WalkOutcome.done node
  | consumed, seg :: more, node =>
    match jsAccess node seg with
    | Except.error e => WalkOutcome.errOut e
    | Except.ok none =>
      match jsReduce consumed with
      | Except.error e => WalkOutcome.errOut e
      | Except.ok joined =>
        WalkOutcome.errOut (ResolveErr.deadEnd
          ⟨deadEndWalkMsg env cid joined, cid, curr, joinSlash rest⟩)
    | Except.ok (some v) =>
      match cidCheck env v with
      | some c => WalkOutcome.jump c (joinSlash (seg :: more))
      | none => walkSegs env cid curr rest (consumed ++ [seg]) more (NodeVal.generic v)

/-- The `resolve` method, with a fuel bound on the recursion depth (the
source recurses unboundedly; fuel exhaustion yields the artificial
`outOfFuel`).  Returns the result together with the list of collaborator
invocations performed, in order. -/
def resolve (env : Env) :
    Nat → CID → String → ResolveOptions →
      Except ResolveErr ResolveResult × List CallEvent
  | 0, _, _, _ => (Except.error ResolveErr.outOfFuel, [])
  | fuel + 1, cid, path, options =>
    if cid.code = kLibp2pKeyCodec then
      (Except.error (ResolveErr.typeError libp2pKeyMsg), [])
    else
      match env.blockGet cid with
      | Except.error e => (Except.error (ResolveErr.collab e), [CallEvent.blockGet cid])
      | Except.ok bytes =>
        match env.decode cid.code cid.hashCode bytes with
        | Except.error e =>
          (Except.error (ResolveErr.collab e),
            [CallEvent.blockGet cid, CallEvent.decode cid.code cid.hashCode])
        | Except.ok decoded =>
          let events := [CallEvent.blockGet cid, CallEvent.decode cid.code cid.hashCode]
          match splitPath path with
          | [] => (Except.ok ⟨decoded.value, decoded.cid, decoded⟩, events)
          | curr :: rest =>
            if cid.code = pbCode then
              if options.followPb = some false then
                (Except.error (ResolveErr.deadEnd
                  ⟨pbDisabledMsg env cid, cid, curr, joinSlash rest⟩), events)
              else
                match decoded.value with
                | NodeVal.pbNode node =>
                  match node.Links.find? (fun l => l.Name = some curr) with
                  | some child =>
                    let r := resolve env fuel child.Hash (joinSlash rest) options
                    (r.1, events ++ r.2)
                  | none =>
                    (Except.error (ResolveErr.deadEnd
                      ⟨noLinkMsg env cid curr, cid, curr, joinSlash rest⟩), events)
                | NodeVal.generic _ =>
                  (Except.error (ResolveErr.typeError undefinedFindMsg), events)
            else
              if options.followIpld = some false then
                (Except.error (ResolveErr.deadEnd
                  ⟨ipldDisabledMsg env cid, cid, curr, joinSlash rest⟩), events)
              else
                match walkSegs env cid curr rest [] (curr :: rest) decoded.value with
                | WalkOutcome.done v => (Except.ok ⟨v, cid, decoded⟩, events)
                | WalkOutcome.errOut e => (Except.error e, events)
                | WalkOutcome.jump c p =>
                  let r := resolve env fuel c p options
                  (r.1, events ++ r.2)

/-- Models `r.slice(n)` on a JavaScript string (code units modelled as
characters). -/
def jsSlice (s : String) (n : Nat) : String :=
  String.mk (s.data.drop n)

/-- The naming path built at the top of `resolveIpns`:
`"/ipns/" + cid` for a string argument, `"/ipns/" + cid.toString()` for
a typed identifier. -/
def ipnsAddrOf (env : Env) (cid : Sum CID String) : String :=
  "/ipns/" ++
    (match cid with
     | Sum.inr s => s
     | Sum.inl c => env.cidToString c)

/-- The `resolveIpns` method: build `"/ipns/" + name`, iterate the name
resolver's sequence keeping only the last emission in `r`, then return
`CID.parse(r.slice(6))`.  An empty sequence leaves `r` at `null`, so
`r.slice` throws a `TypeError`; a name-resolver failure propagates; a
final emission the identifier library cannot parse throws its parse
error. -/
def resolveIpns (env : Env) (cid : Sum CID String) (timeout : Option Nat) :
    Except ResolveErr CID :=
  match env.nameResolve (ipnsAddrOf env cid) true timeout with
  | Except.error e => Except.error (ResolveErr.collab e)
  | Except.ok emissions =>
    match emissions.getLast? with
    | none => Except.error (ResolveErr.typeError nullSliceMsg)
    | some r =>
      match env.parseCid (jsSlice r 6) with
      | some c => Except.ok c
      | none => Except.error (ResolveErr.cidParseError (jsSlice r 6))

/-! ## Helper lemmas -/

/-- Well-formedness of a path segment as produced by `splitPath`:
nonempty and slash-free. -/
def segWf (s : String) : Prop := s ≠ "" ∧ ∀ c ∈ s.data, c ≠ '/'

instance (s : String) : Decidable (segWf s) := by
  unfold segWf; infer_instance

theorem str_data_append (s t : String) : (s ++ t).data = s.data ++ t.data := rfl

theorem str_mk_data (s : String) : String.mk s.data = s := rfl

/-- A bracket access never throws a `DeadEndError`: its exceptions are
the `SyntaxError` of `JSON.parse` and the `TypeError` of `null`
access. -/
theorem jsAccess_no_deadEnd (node : NodeVal) (seg : String) (e : ResolveErr)
    (h : jsAccess node seg = Except.error e) :
    ∀ d : DeadEndError, e ≠ ResolveErr.deadEnd d := by
  intro d
  cases node with
  | pbNode n => simp [jsAccess] at h
  | generic v =>
    cases v with
    | null =>
      simp [jsAccess, jsAccessValue] at h
      simp [← h]
    | arr xs =>
      simp only [jsAccess, jsAccessValue] at h
      cases hj : jsonParseSeg seg with
      | none => rw [hj] at h; simp at h; simp [← h]
      | some j => rw [hj] at h; simp at h
    | bool b => simp [jsAccess, jsAccessValue] at h
    | num n => simp [jsAccess, jsAccessValue] at h
    | str s => simp [jsAccess, jsAccessValue] at h
    | bytes bs => simp [jsAccess, jsAccessValue] at h
    | cid c => simp [jsAccess, jsAccessValue] at h
    | map kvs => simp [jsAccess, jsAccessValue] at h

/-- Scanning a slash-free chunk just accumulates its characters. -/
theorem splitSegsAux_noslash (xd : List Char) :
    ∀ (acc cs : List Char), (∀ c ∈ xd, c ≠ '/') →
      splitSegsAux (xd ++ cs) acc = splitSegsAux cs (xd.reverse ++ acc) := by
  induction xd with
  | nil => intro acc cs _; simp
  | cons c xs ih =>
    intro acc cs hns
    have hc : c ≠ '/' := hns c (by simp)
    have hxs : ∀ c ∈ xs, c ≠ '/' := fun c hm => hns c (by simp [hm])
    simp only [List.cons_append, splitSegsAux, if_neg hc]
    rw [show xs.append cs = xs ++ cs from rfl, ih (c :: acc) cs hxs]
    simp [List.append_assoc]

/-- Every segment `splitPath` produces is nonempty and slash-free. -/
theorem splitPath_segWf (path : String) : ∀ x ∈ splitPath path, segWf x := by
  suffices h : ∀ cs acc, (∀ c ∈ acc, c ≠ '/') →
      ∀ x ∈ splitSegsAux cs acc, segWf x by
    exact h path.data [] (by simp)
  intro cs
  induction cs with
  | nil =>
    intro acc hacc x hx
    by_cases ha : acc = []
    · simp [splitSegsAux, ha] at hx
    · simp [splitSegsAux, ha] at hx
      subst hx
      refine ⟨?_, ?_⟩
      · intro hempty
        have : acc.reverse = [] := by
          have := congrArg String.data hempty
          simpa using this
        simp at this
        exact ha this
      · intro c hc
        have : c ∈ acc := by simpa using hc
        exact hacc c this
  | cons c cs ih =>
    intro acc hacc x hx
    by_cases hc : c = '/'
    · by_cases ha : acc = []
      · simp only [splitSegsAux, if_pos hc, if_pos ha] at hx
        exact ih [] (by simp) x hx
      · simp only [splitSegsAux, if_pos hc, if_neg ha] at hx
        cases hx with
        | head =>
          refine ⟨?_, ?_⟩
          · intro hempty
            have : acc.reverse = [] := by
              have := congrArg String.data hempty
              simpa using this
            simp at this
            exact ha this
          · intro ch hch
            have : ch ∈ acc := by simpa using hch
            exact hacc ch this
        | tail _ hx => exact ih [] (by simp) x hx
    · simp only [splitSegsAux, if_neg hc] at hx
      exact ih (c :: acc) (by
        intro ch hch
        cases hch with
        | head => exact hc
        | tail _ hm => exact hacc ch hm) x hx

/-- Unfolding `join("/")` one step. -/
theorem joinSlash_cons_cons (x y : String) (ys : List String) :
    joinSlash (x :: y :: ys) = x ++ "/" ++ joinSlash (y :: ys) := by
  suffices h : ∀ (zs : List String) (a b : String),
      zs.foldl (fun acc z => acc ++ "/" ++ z) (a ++ b) =
        a ++ zs.foldl (fun acc z => acc ++ "/" ++ z) b by
    show (y :: ys).foldl (fun acc z => acc ++ "/" ++ z) x = _
    simp only [List.foldl_cons]
    calc ys.foldl (fun acc z => acc ++ "/" ++ z) (x ++ "/" ++ y)
        = ys.foldl (fun acc z => acc ++ "/" ++ z) ((x ++ "/") ++ y) := by
          simp [String.append_assoc]
      _ = (x ++ "/") ++ ys.foldl (fun acc z => acc ++ "/" ++ z) y := h ys (x ++ "/") y
      _ = x ++ "/" ++ joinSlash (y :: ys) := by simp [joinSlash, String.append_assoc]
  intro zs
  induction zs with
  | nil => intro a b; rfl
  | cons z zs ih =>
    intro a b
    simp only [List.foldl_cons]
    rw [show a ++ b ++ "/" ++ z = a ++ (b ++ "/" ++ z) by simp [String.append_assoc]]
    exact ih a (b ++ "/" ++ z)

/-- Splitting a rejoin of well-formed segments recovers them: the
round-trip that relates a recursive call's path string back to the
segment list it was built from. -/
theorem splitPath_joinSlash (l : List String) (hwf : ∀ x ∈ l, segWf x) :
    splitPath (joinSlash l) = l := by
  induction l with
  | nil => rfl
  | cons x xs ih =>
    obtain ⟨hx, hxs⟩ : segWf x ∧ ∀ y ∈ xs, segWf y :=
      ⟨hwf x (by simp), fun y hy => hwf y (by simp [hy])⟩
    have hxd : ∀ c ∈ x.data, c ≠ '/' := hx.2
    have hxne : x.data ≠ [] := by
      intro hempty
      exact hx.1 (by cases x; simp_all)
    cases xs with
    | nil =>
      show splitSegsAux x.data [] = [x]
      rw [show x.data = x.data ++ [] from (List.append_nil _).symm,
        splitSegsAux_noslash x.data [] [] hxd]
      simp only [splitSegsAux, List.append_nil]
      rw [if_neg (by simpa using hxne), List.reverse_reverse]
    | cons y ys =>
      rw [joinSlash_cons_cons]
      show splitSegsAux (x ++ "/" ++ joinSlash (y :: ys)).data [] = x :: y :: ys
      have hdata : (x ++ "/" ++ joinSlash (y :: ys)).data =
          x.data ++ ('/' :: (joinSlash (y :: ys)).data) := by
        simp [str_data_append, List.append_assoc,
          show ("/" : String).data = ['/'] from rfl]
      rw [hdata, splitSegsAux_noslash x.data [] ('/' :: (joinSlash (y :: ys)).data) hxd]
      simp only [splitSegsAux, List.append_nil]
      rw [if_pos trivial, if_neg (by simpa using hxne), List.reverse_reverse]
      show x :: splitPath (joinSlash (y :: ys)) = x :: y :: ys
      rw [ih hxs]

/-! ## A concrete environment for witnesses

Four blocks: `cidA` (generic, `{"link": "bee"}` where `"bee"` parses as
`cidB`), `cidB` (generic, `{"extra": ..., "link": {"extra": ...}}`),
`cidP` (DAG-PB with a duplicate link name), `cidQ` (generic, `{}`). -/

def cidA : CID := ⟨0x0129, 0x12, [1]⟩

def cidB : CID := ⟨0x0129, 0x12, [2]⟩

def cidP : CID := ⟨0x70, 0x12, [3]⟩

def cidQ : CID := ⟨0x0129, 0x12, [4]⟩

def valA : NodeVal := NodeVal.generic (Value.map [("link", Value.str "bee")])

def valB : NodeVal := NodeVal.generic (Value.map
  [("extra", Value.str "viaClaimPath"),
   ("link", Value.map [("extra", Value.str "viaCodePath")])])

def pbNodeP : PBNode :=
  ⟨[⟨some "other", cidQ, none⟩,
    ⟨some "file.json", cidA, some 7⟩,
    ⟨some "file.json", cidB, none⟩], none⟩

def valP : NodeVal := NodeVal.pbNode pbNodeP

def valQ : NodeVal := NodeVal.generic (Value.map [])

def blockA : DecodedBlock := ⟨cidA, valA, [10]⟩

def blockB : DecodedBlock := ⟨cidB, valB, [11]⟩

def blockP : DecodedBlock := ⟨cidP, valP, [12]⟩

def blockQ : DecodedBlock := ⟨cidQ, valQ, [13]⟩

def envW : Env :=
  { blockGet := fun c =>
      if c = cidA then Except.ok [10]
      else if c = cidB then Except.ok [11]
      else if c = cidP then Except.ok [12]
      else if c = cidQ then Except.ok [13]
      else Except.error "block not found"
    decode := fun _ _ bs =>
      if bs = [10] then Except.ok blockA
      else if bs = [11] then Except.ok blockB
      else if bs = [12] then Except.ok blockP
      else if bs = [13] then Except.ok blockQ
      else Except.error "cannot decode"
    nameResolve := fun addr _ _ =>
      if addr = "/ipns/mysite" then Except.ok ["/ipns/hop", "/ipns/bee"]
      else Except.error "name resolution failed"
    parseCid := fun s => if s = "bee" then some cidB else none
    cidToString := fun c => "cid-" ++ joinSlash (c.digest.map toString) }

/-! ## Claims -/

/-- C10.  When `resolve` is called with a CID whose codec is the reserved
naming-key codec `0x72` (`libp2p-key`), it throws a `TypeError` before
invoking any collaborator: the invocation trace is empty, so neither the
block source's `get` nor the decoder registry's `decode` was called, for
any environment, fuel, path and options. -/
theorem resolve_libp2pkey_guard (env : Env) (fuel : Nat) (cid : CID) (path : String)
    (opts : ResolveOptions) (h : cid.code = kLibp2pKeyCodec) :
    resolve env (fuel + 1) cid path opts =
      (Except.error (ResolveErr.typeError libp2pKeyMsg), []) := by
  simp [resolve, h]

/-- Witness for C10 at a concrete naming-key CID: no collaborator events
are recorded. -/
theorem resolve_libp2pkey_guard_witness :
    resolve envW 5 ⟨0x72, 0x12, [9]⟩ "/a/b" ⟨some true, some true⟩ =
      (Except.error (ResolveErr.typeError libp2pKeyMsg), []) :=
  resolve_libp2pkey_guard envW 4 ⟨0x72, 0x12, [9]⟩ "/a/b" ⟨some true, some true⟩ rfl

/-- C8.  For a non-naming-key identifier and a path that splits into zero
segments, `resolve` returns right after fetch and decode with the decoded
value, the registry-derived identifier `decoded.cid`, and the decoded
block; the trace shows exactly the fetch and the decode, and the result
does not depend on the decoded value's link or key structure (the
equation holds for every decoded block). -/
theorem resolve_empty_path (env : Env) (fuel : Nat) (cid : CID) (path : String)
    (opts : ResolveOptions) (bytes : List Nat) (decoded : DecodedBlock)
    (hcodec : cid.code ≠ kLibp2pKeyCodec)
    (hget : env.blockGet cid = Except.ok bytes)
    (hdec : env.decode cid.code cid.hashCode bytes = Except.ok decoded)
    (hsegs : splitPath path = []) :
    resolve env (fuel + 1) cid path opts =
      (Except.ok ⟨decoded.value, decoded.cid, decoded⟩,
        [CallEvent.blockGet cid, CallEvent.decode cid.code cid.hashCode]) := by
  simp [resolve, hcodec, hget, hdec, hsegs]

/-- Witness for C8: the root path `"///"` splits into zero segments and
resolution of `cidA` returns its decoded block unchanged. -/
theorem resolve_empty_path_witness :
    resolve envW 1 cidA "///" ⟨none, none⟩ =
      (Except.ok ⟨valA, cidA, blockA⟩,
        [CallEvent.blockGet cidA, CallEvent.decode cidA.code cidA.hashCode]) :=
  resolve_empty_path envW 0 cidA "///" ⟨none, none⟩ [10] blockA
    (by decide) rfl rfl rfl

/-- C7.  A DAG-PB node reached with `followPb` set to `false` and a
non-empty remaining path always yields a `DeadEndError` whose `at` field
is the first remaining segment and whose `remaining` field is the rest
rejoined with `/`; the decoded value is arbitrary (no link is consulted
— the trace stops at the decode), so this holds regardless of whether a
matching link exists. -/
theorem resolve_followPb_false (env : Env) (fuel : Nat) (cid : CID) (path : String)
    (opts : ResolveOptions) (bytes : List Nat) (decoded : DecodedBlock)
    (curr : String) (rest : List String)
    (hcodec : cid.code = pbCode)
    (hget : env.blockGet cid = Except.ok bytes)
    (hdec : env.decode cid.code cid.hashCode bytes = Except.ok decoded)
    (hsegs : splitPath path = curr :: rest)
    (hopt : opts.followPb = some false) :
    resolve env (fuel + 1) cid path opts =
      (Except.error (ResolveErr.deadEnd
        ⟨pbDisabledMsg env cid, cid, curr, joinSlash rest⟩),
        [CallEvent.blockGet cid, CallEvent.decode cid.code cid.hashCode]) := by
  have h72 : cid.code ≠ kLibp2pKeyCodec := by rw [hcodec]; decide
  have hpk : pbCode ≠ kLibp2pKeyCodec := by decide
  have hdec' : env.decode pbCode cid.hashCode bytes = Except.ok decoded := hcodec ▸ hdec
  simp [resolve, h72, hpk, hget, hdec, hdec', hsegs, hcodec, hopt]

/-- Witness for C7: `cidP` has a link named `file.json`, yet with
`followPb := false` the path `/file.json/x` dead-ends with
`at = "file.json"`, `remaining = "x"`. -/
theorem resolve_followPb_false_witness :
    resolve envW 3 cidP "/file.json/x" ⟨some false, none⟩ =
      (Except.error (ResolveErr.deadEnd
        ⟨pbDisabledMsg envW cidP, cidP, "file.json", joinSlash ["x"]⟩),
        [CallEvent.blockGet cidP, CallEvent.decode cidP.code cidP.hashCode]) :=
  resolve_followPb_false envW 2 cidP "/file.json/x" ⟨some false, none⟩ [12] blockP
    "file.json" ["x"] (by decide) rfl rfl rfl rfl

/-- C4.  On a DAG-PB node with following enabled and a non-empty path:
the first segment resolves successfully iff some link's name equals it
(exact match, and `List.find?` — the embedding of `Links.find` — returns
the first such link in iteration order); on a match, `resolve` recurses
on the matched link's target with the remaining segments rejoined with
`/`; on a miss it raises a `DeadEndError` with `at` the segment and
`remaining` the rest rejoined. -/
theorem resolve_pb_links (env : Env) (fuel : Nat) (cid : CID) (path : String)
    (opts : ResolveOptions) (bytes : List Nat) (dcid : CID) (dbytes : List Nat)
    (node : PBNode) (curr : String) (rest : List String)
    (hcodec : cid.code = pbCode)
    (hget : env.blockGet cid = Except.ok bytes)
    (hdec : env.decode cid.code cid.hashCode bytes =
      Except.ok ⟨dcid, NodeVal.pbNode node, dbytes⟩)
    (hsegs : splitPath path = curr :: rest)
    (hopt : opts.followPb ≠ some false) :
    ((node.Links.find? (fun l => l.Name = some curr)).isSome ↔
      ∃ l ∈ node.Links, l.Name = some curr) ∧
    (∀ child, node.Links.find? (fun l => l.Name = some curr) = some child →
      child.Name = some curr ∧
      (resolve env (fuel + 1) cid path opts).1 =
        (resolve env fuel child.Hash (joinSlash rest) opts).1) ∧
    (node.Links.find? (fun l => l.Name = some curr) = none →
      resolve env (fuel + 1) cid path opts =
        (Except.error (ResolveErr.deadEnd
          ⟨noLinkMsg env cid curr, cid, curr, joinSlash rest⟩),
          [CallEvent.blockGet cid, CallEvent.decode cid.code cid.hashCode])) := by
  have h72 : cid.code ≠ kLibp2pKeyCodec := by rw [hcodec]; decide
  have hpk : pbCode ≠ kLibp2pKeyCodec := by decide
  have hdec' : env.decode pbCode cid.hashCode bytes =
      Except.ok ⟨dcid, NodeVal.pbNode node, dbytes⟩ := hcodec ▸ hdec
  refine ⟨?_, ?_, ?_⟩
  · rw [List.find?_isSome]
    simp
  · intro child hchild
    refine ⟨?_, ?_⟩
    · have := List.find?_some hchild
      simpa using this
    · simp [resolve, h72, hpk, hget, hdec, hdec', hsegs, hcodec, hopt, hchild]
  · intro hnone
    simp [resolve, h72, hpk, hget, hdec, hdec', hsegs, hcodec, hopt, hnone]

/-- Witness for C4 at `cidP`, whose node carries two links named
`file.json`: the first one (targeting `cidA`) wins, and `resolve`
recurses on `cidA` with the empty rejoined remainder. -/
theorem resolve_pb_links_witness :
    (⟨some "file.json", cidA, some 7⟩ : PBLink).Name = some "file.json" ∧
    (resolve envW 3 cidP "/file.json" ⟨none, none⟩).1 =
      (resolve envW 2 cidA (joinSlash []) ⟨none, none⟩).1 :=
  (resolve_pb_links envW 2 cidP "/file.json" ⟨none, none⟩ [12] cidP [12]
    pbNodeP "file.json" [] rfl rfl rfl rfl (by decide)).2.1
    ⟨some "file.json", cidA, some 7⟩ rfl

/-- C1.  In the generic walk, when the cursor value reached after
consuming a segment is an embedded identifier (a typed identifier value,
or a string the identifier library parses), the local walk stops at once
and the step requests recursion on that identifier with the unconsumed
suffix *starting at the just-consumed segment* (`segs.slice(i)`, the
head of which is that segment) rejoined with `/`; and `resolve`
dispatches such a request as a recursive call under the same options. -/
theorem resolve_embedded_cid_jump (env : Env) (cid : CID) (curr : String)
    (rest : List String) :
    (∀ consumed seg more node v c,
      jsAccess node seg = Except.ok (some v) →
      cidCheck env v = some c →
      walkSegs env cid curr rest consumed (seg :: more) node =
        WalkOutcome.jump c (joinSlash (seg :: more))) ∧
    (∀ fuel path opts bytes decoded c p,
      cid.code ≠ kLibp2pKeyCodec → cid.code ≠ pbCode →
      env.blockGet cid = Except.ok bytes →
      env.decode cid.code cid.hashCode bytes = Except.ok decoded →
      splitPath path = curr :: rest →
      opts.followIpld ≠ some false →
      walkSegs env cid curr rest [] (curr :: rest) decoded.value =
        WalkOutcome.jump c p →
      (resolve env (fuel + 1) cid path opts).1 = (resolve env fuel c p opts).1) := by
  constructor
  · intro consumed seg more node v c haccess hcid
    simp [walkSegs, haccess, hcid]
  · intro fuel path opts bytes decoded c p h72 hpb hget hdec hsegs hopt hwalk
    simp [resolve, h72, hpb, hget, hdec, hsegs, hopt, hwalk]

/-- Witness for C1: at `cidA` (value `{"link": "bee"}`, where `"bee"`
parses as `cidB`), the walk on `["link", "extra"]` jumps to `cidB` with
the suffix starting at the matched segment, and `resolve` recurses
accordingly. -/
theorem resolve_embedded_cid_jump_witness :
    walkSegs envW cidA "link" ["extra"] [] ["link", "extra"] valA =
      WalkOutcome.jump cidB (joinSlash ["link", "extra"]) ∧
    (resolve envW 2 cidA "/link/extra" ⟨none, none⟩).1 =
      (resolve envW 1 cidB "link/extra" ⟨none, none⟩).1 :=
  ⟨(resolve_embedded_cid_jump envW cidA "link" ["extra"]).1 [] "link" ["extra"]
      valA (Value.str "bee") cidB rfl rfl,
    (resolve_embedded_cid_jump envW cidA "link" ["extra"]).2 1 "/link/extra"
      ⟨none, none⟩ [10] blockA cidB "link/extra" (by decide) (by decide)
      rfl rfl rfl (by decide) rfl⟩

/-- Counterexample to C2.  For the spec scenario — generic map
`{"link": s}` where `s` parses as `cidB`, resolved with `/link/extra` —
the claim says the recursion against the embedded identifier uses path
`"/extra"`, which at `envW` would select `cidB`'s `"extra"` entry
(`"viaClaimPath"`).  The code instead recurses with `"link/extra"`
(re-including the matched segment), selecting `cidB.link.extra`
(`"viaCodePath"`), so the claimed result is refuted. -/
theorem resolve_link_extra_counterexample :
    (resolve envW 2 cidA "/link/extra" ⟨none, none⟩).1 =
      Except.ok ⟨NodeVal.generic (Value.str "viaCodePath"), cidB, blockB⟩ ∧
    (resolve envW 2 cidA "/link/extra" ⟨none, none⟩).1 ≠
      Except.ok ⟨NodeVal.generic (Value.str "viaClaimPath"), cidB, blockB⟩ := by
  have h1 : (resolve envW 2 cidA "/link/extra" ⟨none, none⟩).1 =
      Except.ok ⟨NodeVal.generic (Value.str "viaCodePath"), cidB, blockB⟩ := rfl
  refine ⟨h1, ?_⟩
  rw [h1]
  intro h
  injection h with h2
  injection h2 with hv hc hb
  injection hv with hs
  injection hs with ht
  exact absurd ht (by decide)

/-- C2 as amended.  For a block decoding to the generic map
`{"link": s}` with `s` parsing as an identifier, `resolve(cidA,
"/link/extra")` detects the embedded identifier at `/link` and then
recurses against it with path `"link/extra"` — the unconsumed suffix
starting at the matched segment — not `"/extra"`. -/
theorem resolve_link_extra_amended (env : Env) (fuel : Nat) (cidA' cidB' : CID)
    (s : String) (dcid : CID) (dbytes bytes : List Nat) (opts : ResolveOptions)
    (h72 : cidA'.code ≠ kLibp2pKeyCodec) (hpb : cidA'.code ≠ pbCode)
    (hget : env.blockGet cidA' = Except.ok bytes)
    (hdec : env.decode cidA'.code cidA'.hashCode bytes =
      Except.ok ⟨dcid, NodeVal.generic (Value.map [("link", Value.str s)]), dbytes⟩)
    (hparse : env.parseCid s = some cidB')
    (hopt : opts.followIpld ≠ some false) :
    (resolve env (fuel + 1) cidA' "/link/extra" opts).1 =
      (resolve env fuel cidB' "link/extra" opts).1 := by
  have hsegs : splitPath "/link/extra" = ["link", "extra"] := rfl
  have hstep : jsAccess (NodeVal.generic (Value.map [("link", Value.str s)])) "link" =
      Except.ok (some (Value.str s)) := rfl
  have hwalk : walkSegs env cidA' "link" ["extra"] [] ["link", "extra"]
      (NodeVal.generic (Value.map [("link", Value.str s)])) =
      WalkOutcome.jump cidB' "link/extra" := by
    simp only [walkSegs]
    rw [hstep]
    simp only [cidCheck]
    rw [hparse]
    rfl
  simp [resolve, h72, hpb, hget, hdec, hsegs, hopt, hwalk]

/-- Witness for the amended C2, at `envW`. -/
theorem resolve_link_extra_amended_witness :
    (resolve envW 4 cidA "/link/extra" ⟨some true, some true⟩).1 =
      (resolve envW 3 cidB "link/extra" ⟨some true, some true⟩).1 :=
  resolve_link_extra_amended envW 3 cidA cidB "bee" cidA [10] [10]
    ⟨some true, some true⟩ (by decide) (by decide) rfl rfl rfl (by decide)

/-- Counterexample to C3.  A continuing recursive step that consumes no
segment at all: at `cidA` the walk over the single segment `"link"`
reaches the embedded identifier immediately and requests recursion with
`"link"` again — the recursive call receives a segment list of the same
length (one) as the caller's, and `resolve` continues with it, refuting
the claim that every continuing step consumes exactly one segment. -/
theorem resolve_segment_consumption_counterexample :
    walkSegs envW cidA "link" [] [] ["link"] valA =
      WalkOutcome.jump cidB (joinSlash ["link"]) ∧
    splitPath (joinSlash ["link"]) = ["link"] ∧
    (resolve envW 2 cidA "/link" ⟨none, none⟩).1 =
      (resolve envW 1 cidB "link" ⟨none, none⟩).1 ∧
    splitPath "/link" = ["link"] :=
  ⟨rfl, rfl, rfl, rfl⟩

/-- C3 as amended.  A DAG-PB link hop consumes exactly one segment: the
recursive call's path splits back into `rest`, one segment shorter than
the received `curr :: rest`.  An embedded-identifier jump re-includes
the matched segment: from a walk state with remaining suffix
`seg :: more` the recursion receives exactly `seg :: more` back, so such
a step consumes exactly as many segments as the walk had locally
consumed before the jump — zero at the first segment, possibly more than
one deeper in the walk. -/
theorem resolve_segment_consumption_amended (env : Env) (cid : CID) (curr : String)
    (rest : List String) :
    (∀ fuel path opts bytes dcid dbytes node child,
      cid.code = pbCode →
      env.blockGet cid = Except.ok bytes →
      env.decode cid.code cid.hashCode bytes =
        Except.ok ⟨dcid, NodeVal.pbNode node, dbytes⟩ →
      splitPath path = curr :: rest →
      opts.followPb ≠ some false →
      node.Links.find? (fun l => l.Name = some curr) = some child →
      (resolve env (fuel + 1) cid path opts).1 =
        (resolve env fuel child.Hash (joinSlash rest) opts).1 ∧
      splitPath (joinSlash rest) = rest ∧
      rest.length + 1 = (curr :: rest).length) ∧
    (∀ consumed seg more node v c,
      (∀ x ∈ seg :: more, segWf x) →
      jsAccess node seg = Except.ok (some v) →
      cidCheck env v = some c →
      walkSegs env cid curr rest consumed (seg :: more) node =
        WalkOutcome.jump c (joinSlash (seg :: more)) ∧
      splitPath (joinSlash (seg :: more)) = seg :: more) := by
  constructor
  · intro fuel path opts bytes dcid dbytes node child hcodec hget hdec hsegs hopt hchild
    have h72 : cid.code ≠ kLibp2pKeyCodec := by rw [hcodec]; decide
    have hpk : pbCode ≠ kLibp2pKeyCodec := by decide
    have hdec' : env.decode pbCode cid.hashCode bytes =
        Except.ok ⟨dcid, NodeVal.pbNode node, dbytes⟩ := hcodec ▸ hdec
    refine ⟨?_, ?_, rfl⟩
    · simp [resolve, h72, hpk, hget, hdec, hdec', hsegs, hcodec, hopt, hchild]
    · exact splitPath_joinSlash rest
        (fun x hx => splitPath_segWf path x (hsegs ▸ List.mem_cons_of_mem curr hx))
  · intro consumed seg more node v c hwf haccess hcid
    refine ⟨?_, splitPath_joinSlash (seg :: more) hwf⟩
    simp [walkSegs, haccess, hcid]

/-- Witness for the amended C3: a one-segment link hop at `cidP` (the
recursion receives zero segments of the received one), and a
zero-consuming jump inside the walk, both at concrete inputs. -/
theorem resolve_segment_consumption_amended_witness :
    ((resolve envW 3 cidP "/other/x" ⟨none, none⟩).1 =
      (resolve envW 2 cidQ (joinSlash ["x"]) ⟨none, none⟩).1 ∧
      splitPath (joinSlash ["x"]) = ["x"] ∧
      (["x"] : List String).length + 1 = (["other", "x"] : List String).length) ∧
    (walkSegs envW cidP "other" ["x"] ["q"] ["link"] valA =
      WalkOutcome.jump cidB (joinSlash ["link"]) ∧
    splitPath (joinSlash ["link"]) = ["link"]) :=
  ⟨(resolve_segment_consumption_amended envW cidP "other" ["x"]).1 2 "/other/x"
      ⟨none, none⟩ [12] cidP [12] pbNodeP ⟨some "other", cidQ, none⟩
      rfl rfl rfl rfl (by decide) rfl,
    (resolve_segment_consumption_amended envW cidP "other" ["x"]).2 ["q"] "link" []
      valA (Value.str "bee") cidB (by decide) rfl rfl⟩

/-- C5 / code bug.  At `cidA` (generic map `{"link": "bee"}`) the path
`/missing` cannot be resolved at its *first* segment; the claim (and the
source's own `@throws` documentation) says this raises a `DeadEndError`,
but building the error message evaluates
`segs.slice(0, 0).reduce(...)`, and `reduce` on an empty array with no
initial value throws a `TypeError` first — so the call fails with a
`TypeError` and no `DeadEndError` is ever constructed. -/
theorem resolve_first_segment_failure_bug :
    (resolve envW 1 cidA "/missing" ⟨none, none⟩).1 =
      Except.error (ResolveErr.typeError "Reduce of empty array with no initial value") ∧
    ∀ d : DeadEndError, (resolve envW 1 cidA "/missing" ⟨none, none⟩).1 ≠
      Except.error (ResolveErr.deadEnd d) := by
  have h1 : (resolve envW 1 cidA "/missing" ⟨none, none⟩).1 =
      Except.error (ResolveErr.typeError "Reduce of empty array with no initial value") :=
    rfl
  refine ⟨h1, fun d h => ?_⟩
  rw [h1] at h
  injection h with h2
  exact ResolveErr.noConfusion h2

/-- Counterexample to C6.  At `cidQ` (the empty generic map `{}`) the
walk fails at the first segment of `/y`; no `DeadEndError` carrying the
claimed fields is raised — the call fails with the empty-`reduce`
`TypeError` instead. -/
theorem walk_deadEnd_first_segment_counterexample :
    (resolve envW 1 cidQ "/y" ⟨none, none⟩).1 =
      Except.error (ResolveErr.typeError "Reduce of empty array with no initial value") ∧
    ∀ d : DeadEndError, (resolve envW 1 cidQ "/y" ⟨none, none⟩).1 ≠
      Except.error (ResolveErr.deadEnd d) := by
  have h1 : (resolve envW 1 cidQ "/y" ⟨none, none⟩).1 =
      Except.error (ResolveErr.typeError "Reduce of empty array with no initial value") :=
    rfl
  refine ⟨h1, fun d h => ?_⟩
  rw [h1] at h
  injection h with h2
  exact ResolveErr.noConfusion h2

/-- C6 as amended.  Every `DeadEndError` the generic walk raises — which
can only happen when the failing position is at least one segment past
the walk's start, since failure at the very first position throws a
`TypeError` while building the message — carries the original first
remaining segment in `at`, the original segments after it rejoined with
`/` in `remaining`, the current block's identifier in `cid`, and a
message naming the path consumed so far joined with `/`; and `resolve`
surfaces the walk's error unchanged. -/
theorem walk_deadEnd_fields (env : Env) (cid : CID) (curr : String)
    (rest : List String) :
    (∀ remaining consumed node e,
      walkSegs env cid curr rest consumed remaining node =
        WalkOutcome.errOut (ResolveErr.deadEnd e) →
      e.cid = cid ∧ e.at_ = curr ∧ e.remaining = joinSlash rest ∧
      ∃ j, j ≤ remaining.length ∧ 1 ≤ consumed.length + j ∧
        e.msg = deadEndWalkMsg env cid (joinSlash (consumed ++ remaining.take j))) ∧
    (∀ fuel path opts bytes decoded err,
      cid.code ≠ kLibp2pKeyCodec → cid.code ≠ pbCode →
      env.blockGet cid = Except.ok bytes →
      env.decode cid.code cid.hashCode bytes = Except.ok decoded →
      splitPath path = curr :: rest →
      opts.followIpld ≠ some false →
      walkSegs env cid curr rest [] (curr :: rest) decoded.value =
        WalkOutcome.errOut err →
      (resolve env (fuel + 1) cid path opts).1 = Except.error err) := by
  constructor
  · intro remaining
    induction remaining with
    | nil =>
      intro consumed node e h
      simp [walkSegs] at h
    | cons seg more ih =>
      intro consumed node e h
      simp only [walkSegs] at h
      cases haccess : jsAccess node seg with
      | error e' =>
        rw [haccess] at h
        simp at h
        exact absurd rfl (h ▸ jsAccess_no_deadEnd node seg e' haccess e)
      | ok ov =>
        cases ov with
        | none =>
          rw [haccess] at h
          cases consumed with
          | nil => simp [jsReduce] at h
          | cons c0 cs =>
            rw [jsReduce_cons] at h
            simp only [WalkOutcome.errOut.injEq, ResolveErr.deadEnd.injEq] at h
            refine ⟨?_, ?_, ?_, 0, by simp, by simp, ?_⟩ <;> (rw [← h]; try simp)
        | some v =>
          rw [haccess] at h
          simp only at h
          cases hcid : cidCheck env v with
          | some c => rw [hcid] at h; simp at h
          | none =>
            rw [hcid] at h
            simp only at h
            obtain ⟨h1, h2, h3, j', hj1, _, hmsg⟩ :=
              ih (consumed ++ [seg]) (NodeVal.generic v) e h
            refine ⟨h1, h2, h3, j' + 1, ?_, ?_, ?_⟩
            · simpa using Nat.succ_le_succ hj1
            · omega
            · rw [hmsg]
              congr 2
              simp [List.take_succ_cons, List.append_assoc]
  · intro fuel path opts bytes decoded err h72 hpb hget hdec hsegs hopt hwalk
    simp [resolve, h72, hpb, hget, hdec, hsegs, hopt, hwalk]

/-- Witness for the amended C6: a failure one segment deep at `cidB`
(path segments `["link", "zzz"]`: `link` resolves to an inner map,
`zzz` does not exist) raises a `DeadEndError` whose fields the theorem
then determines. -/
theorem walk_deadEnd_fields_witness :
    (⟨deadEndWalkMsg envW cidB "link", cidB, "link", joinSlash ["zzz"]⟩ :
        DeadEndError).cid = cidB ∧
    (⟨deadEndWalkMsg envW cidB "link", cidB, "link", joinSlash ["zzz"]⟩ :
        DeadEndError).at_ = "link" ∧
    (⟨deadEndWalkMsg envW cidB "link", cidB, "link", joinSlash ["zzz"]⟩ :
        DeadEndError).remaining = joinSlash ["zzz"] ∧
    ∃ j, j ≤ (["link", "zzz"] : List String).length ∧
      1 ≤ ([] : List String).length + j ∧
      (⟨deadEndWalkMsg envW cidB "link", cidB, "link", joinSlash ["zzz"]⟩ :
        DeadEndError).msg =
        deadEndWalkMsg envW cidB
          (joinSlash (([] : List String) ++ (["link", "zzz"] : List String).take j)) :=
  (walk_deadEnd_fields envW cidB "link" ["zzz"]).1 ["link", "zzz"] [] valB
    ⟨deadEndWalkMsg envW cidB "link", cidB, "link", joinSlash ["zzz"]⟩ rfl

/-- C9.  `resolveIpns` keeps only the last emission of the name
resolver's sequence (the result is determined by `getLast?` alone),
strips the 6-character `"/ipns/"` marker from it and parses the
remainder as an identifier; it fails when the sequence is empty (the
`null.slice` `TypeError`), when the final value does not parse (the
parse error), and it propagates a name-resolver failure — including
failure on an unparseable naming path — unchanged. -/
theorem resolveIpns_spec (env : Env) (nm : Sum CID String) (timeout : Option Nat) :
    (∀ l r s c, env.nameResolve (ipnsAddrOf env nm) true timeout = Except.ok l →
      l.getLast? = some r → r = "/ipns/" ++ s → env.parseCid s = some c →
      resolveIpns env nm timeout = Except.ok c) ∧
    (env.nameResolve (ipnsAddrOf env nm) true timeout = Except.ok [] →
      resolveIpns env nm timeout = Except.error (ResolveErr.typeError nullSliceMsg)) ∧
    (∀ l r, env.nameResolve (ipnsAddrOf env nm) true timeout = Except.ok l →
      l.getLast? = some r → env.parseCid (jsSlice r 6) = none →
      resolveIpns env nm timeout =
        Except.error (ResolveErr.cidParseError (jsSlice r 6))) ∧
    (∀ e, env.nameResolve (ipnsAddrOf env nm) true timeout = Except.error e →
      resolveIpns env nm timeout = Except.error (ResolveErr.collab e)) := by
  refine ⟨?_, ?_, ?_, ?_⟩
  · intro l r s c hres hlast hpre hparse
    have hslice : jsSlice r 6 = s := by
      rw [hpre]
      show String.mk ((("/ipns/" ++ s) : String).data.drop 6) = s
      rw [str_data_append,
        show (6 : Nat) = (("/ipns/" : String).data).length from rfl,
        List.drop_left]
    unfold resolveIpns
    rw [hres]
    simp only
    rw [hlast]
    simp only
    rw [hslice, hparse]
  · intro hres
    unfold resolveIpns
    rw [hres]
    rfl
  · intro l r hres hlast hparse
    unfold resolveIpns
    rw [hres]
    simp only
    rw [hlast]
    simp only
    rw [hparse]
  · intro e hres
    unfold resolveIpns
    rw [hres]

/-- Witness for C9: the name resolver for `/ipns/mysite` emits an
intermediate hop and then `/ipns/bee`; only the last emission is kept,
the marker is stripped, and `"bee"` parses to `cidB`. -/
theorem resolveIpns_spec_witness :
    resolveIpns envW (Sum.inr "mysite") none = Except.ok cidB :=
  (resolveIpns_spec envW (Sum.inr "mysite") none).1
    ["/ipns/hop", "/ipns/bee"] "/ipns/bee" "bee" cidB rfl rfl rfl rfl
